import Mathlib

/-!
Verification of the HTTP ingest core of the Livepeer media server
(`server/mediaserver.go`), shallowly embedded in Lean.

The registry state (`rtmpConnections`, `internalManifests`) is modelled as
association lists of string keys; Go map insertion/deletion/lookup become
`mapInsert`/`mapErase`/`mfind`.  Time, nonces and the webhook outcome are
passed as explicit parameters.  Go's nondeterministic map iteration in the
rebind cleanup of `HandlePush` is modelled by first-match order over the
association list (`findOldExternal`); the registry invariant proved below
guarantees at most one candidate, so the choice is immaterial there.
-/

set_option linter.unusedVariables false

namespace MediaServer

/-- Container formats recognised by the ingest path (`ffmpeg.Format*`). -/
inductive Format
  | FormatNone
  | FormatMPEGTS
  | FormatMP4
  deriving DecidableEq, Repr

/-- The fields of `ffmpeg.VideoProfile` relevant to the ingest core. -/
structure VideoProfile where
  name : String
  resolution : String := ""
  bitrate : String := ""
  format : Format := Format.FormatNone
  deriving DecidableEq, Repr

/-- The fields of `rtmpConnection` relevant to the ingest core.
`profile` is the source video profile; `profiles` is `params.Profiles`.
`hasPl` records whether `cxn.pl` is non-nil (always true for connections
created by the push path). -/
structure RtmpConnection where
  mid : String
  nonce : Nat
  profile : VideoProfile
  profiles : List VideoProfile
  hasPl : Bool := true
  lastUsed : Nat := 0
  deriving DecidableEq, Repr

/-- The lock-guarded registry state of `LivepeerServer`, together with the
process-wide default profile list `BroadcastJobVideoProfiles`. -/
structure ServerState where
  rtmpConnections : List (String × RtmpConnection)
  internalManifests : List (String × String)
  broadcastJobVideoProfiles : List VideoProfile
  deriving DecidableEq, Repr

/-- Go map lookup on an association list (first match). -/
def mfind {α : Type} : List (String × α) → String → Option α
  | [], _ => none
  | (k, v) :: rest, key => if k = key then some v else mfind rest key

/-- Go map `delete` on an association list. -/
def mapErase {α : Type} : List (String × α) → String → List (String × α)
  | [], _ => []
  | (k', v) :: rest, k => if k' = k then mapErase rest k else (k', v) :: mapErase rest k

/-- Go map assignment `m[k] = v` on an association list. -/
def mapInsert {α : Type} (m : List (String × α)) (k : String) (v : α) : List (String × α) :=
  (k, v) :: mapErase m k

/-- The `for k, v := range m { if v == target { ...; break } }` search over
`internalManifests` in `HandlePush` (first key with the given value). -/
def findOldExternal : List (String × String) → String → Option String
  | [], _ => none
  | (k, v) :: rest, target => if v = target then some k else findOldExternal rest target

/-- Resolution of an external manifest identity through `internalManifests`,
as done at the top of `removeRTMPStream` and `HandlePush`. -/
def resolveMid (st : ServerState) (extmid : String) : String :=
  match mfind st.internalManifests extmid with
  | some intmid => intmid
  | none => extmid

/-- `removeRTMPStream`: resolve the identity, drop both map entries if a
connection with a playlist is registered, otherwise report
`errUnknownStream` (`false`) and leave the state unchanged.  Closing the
stream / cleaning up the session manager and playlist have no effect on the
registry state and are elided. -/
def removeRTMPStream (st : ServerState) (extmid : String) : ServerState × Bool :=
  let intmid := resolveMid st extmid
  match mfind st.rtmpConnections intmid with
  | none => (st, false)
  | some cxn =>
    if cxn.hasPl then
      ({ st with
          rtmpConnections := mapErase st.rtmpConnections intmid,
          internalManifests := mapErase st.internalManifests extmid }, true)
    else (st, false)

/-- The fields of `core.StreamParameters` relevant to the ingest core. -/
structure StreamParameters where
  manifestID : String
  resolution : String
  format : Format
  profiles : List VideoProfile
  deriving DecidableEq, Repr

/-- Identity selection in `createRTMPStreamIDHandler` as exercised by the
push path: the webhook-assigned manifest identity when present and
non-empty, otherwise the URL-derived one.  (The random fallback only fires
for an empty URL identity, which `HandlePush` rejects earlier.) -/
def paramManifestID (webhookMid : Option String) (extmid : String) : String :=
  match webhookMid with
  | some m => if m = "" then extmid else m
  | none => extmid

/-- The `core.StreamParameters` built by `createRTMPStreamIDHandler` for a
push, with `Resolution`/`Format` filled in by `HandlePush`.  The profile
list is `append([]ffmpeg.VideoProfile(nil), profiles...)` in the source: a
fresh backing array whose elements are copied by value, so later writes to
the connection's profiles never reach `BroadcastJobVideoProfiles`; in this
value-semantics embedding the copy is the list itself. -/
def createStreamParams (defaults : List VideoProfile) (extmid : String)
    (webhookMid : Option String) (resolution : String) (format : Format) :
    StreamParameters :=
  { manifestID := paramManifestID webhookMid extmid
    resolution := resolution
    format := format
    profiles := defaults }

/-- `registerConnection` on the sequential registry: the read-locked fast
path and the write-locked re-check coincide here, so the double-checked
insertion collapses to one lookup.  Returns the connection and a
`created` flag (`false` models `errAlreadyExists`, in which case the
caller's freshly built session manager is discarded). -/
def registerConnection (st : ServerState) (params : StreamParameters)
    (nonce now : Nat) : ServerState × RtmpConnection × Bool :=
  let mid := params.manifestID
  match mfind st.rtmpConnections mid with
  | some oldCxn => (st, oldCxn, false)
  | none =>
    let vProfile : VideoProfile :=
      { name := "source", resolution := params.resolution, bitrate := "4000k",
        format := params.format }
    let cxn : RtmpConnection :=
      { mid := mid, nonce := nonce, profile := vProfile,
        profiles := params.profiles, hasPl := true, lastUsed := now }
    ({ st with rtmpConnections := mapInsert st.rtmpConnections mid cxn }, cxn, true)

/-- The `for i, v := range params.Profiles` loop of `HandlePush` that sets
the container format on every profile whose format is `FormatNone`. -/
def setProfileFormats (profiles : List VideoProfile) (format : Format) :
    List VideoProfile :=
  profiles.map fun p =>
    if p.format = Format.FormatNone then { p with format := format } else p

/-- Lines 752–772 of `HandlePush`: when a fresh external identity resolves
(via the webhook) to the internal identity of a pre-existing connection,
end the stream registered under the older external identity ("Close the
old connection, and open a new one" in the source). -/
def cleanupOldExternal (st : ServerState) (mid pm : String) : ServerState :=
  if mid ≠ pm ∧ (mfind st.rtmpConnections pm).isSome ∧
      (mfind st.internalManifests mid).getD "" = "" then
    match findOldExternal st.internalManifests pm with
    | some oldStreamID =>
      if oldStreamID ≠ "" ∧ mid ≠ oldStreamID then (removeRTMPStream st oldStreamID).1
      else st
    | none => st
  else st

/-- Lines 781–822 of `HandlePush`: register the connection (possibly
getting back an already-existing one) and, when its internal manifest
identity differs from the request's identity, record the
external-to-internal mapping in `internalManifests`. -/
def registerAndMap (t : ServerState) (params : StreamParameters)
    (nonce now : Nat) (mid : String) : ServerState × Option RtmpConnection :=
  let reg := registerConnection t params nonce now
  if reg.2.1.mid ≠ mid then
    ({ reg.1 with internalManifests := mapInsert reg.1.internalManifests mid reg.2.1.mid },
      some reg.2.1)
  else (reg.1, some reg.2.1)

/-- The bind-connection step of `HandlePush` (parse already done, `format ≠
FormatNone` already enforced): resolve the identity, refresh `lastUsed` on
a live connection, otherwise run the stream-ID handler, evict a colliding
older external binding, register, and record the external-to-internal
mapping when the webhook rewrote the identity.  Returns the connection the
request proceeds with (`none` models the 400 on an empty manifest ID). -/
def handlePushBind (st : ServerState) (extmid : String) (webhookMid : Option String)
    (resolution : String) (format : Format) (nonce now : Nat) :
    ServerState × Option RtmpConnection :=
  if extmid = "" then (st, none)
  else
    let mid := resolveMid st extmid
    match mfind st.rtmpConnections mid with
    | some cxn =>
      let cxn' := { cxn with lastUsed := now }
      ({ st with rtmpConnections := mapInsert st.rtmpConnections mid cxn' }, some cxn')
    | none =>
      let params0 := createStreamParams st.broadcastJobVideoProfiles extmid webhookMid
        resolution format
      let st1 := cleanupOldExternal st mid params0.manifestID
      let params := { params0 with profiles := setProfileFormats params0.profiles format }
      registerAndMap st1 params nonce now mid

/-- One registry operation: an HTTP push (its bind-connection step) or a
stream removal (`removeRTMPStream`, as issued by the inactivity reaper or
an explicit stream end). -/
inductive Op
  | push (extmid : String) (webhookMid : Option String) (resolution : String)
      (format : Format) (nonce now : Nat)
  | remove (mid : String)

/-- Effect of one registry operation on the state. -/
def step (st : ServerState) : Op → ServerState
  | .push e wm res fmt n now => (handlePushBind st e wm res fmt n now).1
  | .remove m => (removeRTMPStream st m).1

/-- Effect of a sequence of registry operations. -/
def run (st : ServerState) (ops : List Op) : ServerState := ops.foldl step st

/-- A removal key is benign when it resolves through the external map, or
names an internal identity that no external identity is bound to. -/
def removeKeyOk (st : ServerState) (m : String) : Prop :=
  (mfind st.internalManifests m).isSome ∨ ∀ e, mfind st.internalManifests e ≠ some m

/-- Side condition on one operation under which the registry invariant is
preserved (pushes are unrestricted). -/
def okOp (st : ServerState) : Op → Prop
  | .push _ _ _ _ _ _ => True
  | .remove m => removeKeyOk st m

/-- Every operation of the sequence satisfies its side condition in the
state where it runs. -/
def okRun (st : ServerState) : List Op → Prop
  | [] => True
  | op :: ops => okOp st op ∧ okRun (step st op) ops

/-- Modelled from the spec: `common.ProfileFormatExtension` (not under
`src/`; §4.7 of the spec) — `.ts` for MPEG-TS, `.mp4` for MP4, an error
(`none`) otherwise. -/
def profileFormatExt : Format → Option String
  | Format.FormatMPEGTS => some ".ts"
  | Format.FormatMP4 => some ".mp4"
  | Format.FormatNone => none

/-- Modelled from the spec: `common.ProfileFormatMimeType` (not under
`src/`; §4.7 of the spec) — `video/mp2t` for MPEG-TS, `video/mp4` for MP4,
an error (`none`) otherwise. -/
def profileFormatMime : Format → Option String
  | Format.FormatMPEGTS => some "video/mp2t"
  | Format.FormatMP4 => some "video/mp4"
  | Format.FormatNone => none

/-- Modelled from the spec: `common.ProfileExtensionFormat` (not under
`src/`; §4.1 of the spec) — `.ts` → MPEG-TS, `.mp4` → MP4, anything else
(including `.m3u8`) → `FormatNone`. -/
def profileExtFormat (ext : String) : Format :=
  if ext = ".ts" then Format.FormatMPEGTS
  else if ext = ".mp4" then Format.FormatMP4
  else Format.FormatNone

/-- Body of one multipart part: rendition payload bytes, or the URI string
(written as UTF-8 bytes in the source) for a URI-reference part. -/
inductive PartBody
  | data (d : List Nat)
  | uri (u : String)
  deriving DecidableEq, Repr

/-- One emitted multipart part: the headers and body written by
`HandlePush` via `mw.CreatePart`. -/
structure Part where
  contentType : String
  contentLength : Nat
  contentDisposition : String
  renditionName : String
  body : PartBody
  deriving DecidableEq, Repr

/-- A URI-reference part: `Content-Type` is
`application/vnd+livepeer.uri; name="<profile>_<seq>.txt"`, the length is
the URI's byte length, and the body is the URI string. -/
def mkUriPart (prof : VideoProfile) (seq : Nat) (url : String) : Part :=
  let fname := "\"" ++ prof.name ++ "_" ++ toString seq ++ ".txt" ++ "\""
  { contentType := "application/vnd+livepeer.uri" ++ "; name=" ++ fname
    contentLength := url.utf8ByteSize
    contentDisposition := "attachment; filename=" ++ fname
    renditionName := prof.name
    body := PartBody.uri url }

/-- A binary part: `Content-Type` is `<mime>; name="<profile>_<seq><ext>"`
(the mime lookup error is logged but not fatal in the source, modelled by
`getD ""`), the length is the payload's, and the body is the payload. -/
def mkBinPart (prof : VideoProfile) (seq : Nat) (ext : String)
    (data : List Nat) : Part :=
  let typ := (profileFormatMime prof.format).getD ""
  let fname := "\"" ++ prof.name ++ "_" ++ toString seq ++ ext ++ "\""
  { contentType := typ ++ "; name=" ++ fname
    contentLength := data.length
    contentDisposition := "attachment; filename=" ++ fname
    renditionName := prof.name
    body := PartBody.data data }

/-- The multipart response loop of `HandlePush`.  `store` is the
connection's in-memory storage session (`MemorySession.GetData`; `none`
models a nil result), so `(store url).getD []` is `renditionData[i]`.
Iteration `i` reads `cxn.params.Profiles[i]` on every path (`.Format` in
the binary branch, `.Name` in both); `none` models the out-of-bounds panic
when `i` exceeds the profile list.  Otherwise the result is the list of
parts written, paired with `true` when the loop broke early on a profile
format with no known extension. -/
def mkParts (profiles : List VideoProfile) (seq : Nat)
    (store : String → Option (List Nat)) :
    Nat → List String → Option (List Part × Bool)
  | _, [] => some ([], false)
  | i, url :: rest =>
    match profiles.get? i with
    | none => none
    | some prof =>
      let data := (store url).getD []
      if data.length = 0 then
        match mkParts profiles seq store (i + 1) rest with
        | none => none
        | some (ps, brk) => some (mkUriPart prof seq url :: ps, brk)
      else
        match profileFormatExt prof.format with
        | none => some ([], true)
        | some ext =>
          match mkParts profiles seq store (i + 1) rest with
          | none => none
          | some (ps, brk) => some (mkBinPart prof seq ext data :: ps, brk)

/-- The webhook response fields that decide authentication
(`authWebhookResponse`); the profile/storage fields are carried along by
the callers and do not affect `authenticateStream`'s verdict. -/
structure AuthWebhookResponse where
  manifestID : String
  streamKey : String := ""
  deriving DecidableEq, Repr

/-- Outcome of reading and JSON-decoding the webhook response body. -/
inductive WebhookBody
  | empty
  | malformed
  | parsed (resp : AuthWebhookResponse)
  deriving DecidableEq, Repr

/-- Outcome of the `http.Post` to the webhook: a transport error, or a
response with a status code and a body. -/
inductive WebhookOutcome
  | netError
  | response (status : Nat) (body : WebhookBody)
  deriving DecidableEq, Repr

/-- Result of `authenticateStream`: `ok none` is "no opinion" (nil
response and nil error), `ok (some r)` successful authentication, `err`
any returned error. -/
inductive AuthResult
  | ok (resp : Option AuthWebhookResponse)
  | err
  deriving DecidableEq, Repr

/-- `authenticateStream` with the HTTP exchange abstracted into
`WebhookOutcome` and JSON decoding into `WebhookBody`.  The branch order
follows the source: unset `AuthWebhookURL` first, then the `http.Post`
error, then the status check, then the empty-body check, then decoding,
then the empty-`manifestID` check. -/
def authenticateStream (webhookConfigured : Bool) (out : WebhookOutcome) :
    AuthResult :=
  if !webhookConfigured then AuthResult.ok none
  else
    match out with
    | WebhookOutcome.netError => AuthResult.err
    | WebhookOutcome.response status body =>
      if status ≠ 200 then AuthResult.err
      else
        match body with
        | WebhookBody.empty => AuthResult.ok none
        | WebhookBody.malformed => AuthResult.err
        | WebhookBody.parsed r =>
          if r.manifestID = "" then AuthResult.err else AuthResult.ok (some r)

/-- `httpPushTimeout` default (`1 * time.Minute`) in nanoseconds. -/
def httpPushTimeoutNs : Nat := 60 * 1000000000

/-- The significand of the binary64 double nearest to 0.9: Go's literal
`0.9` in `httpPushResetTimer` denotes exactly `8106479329266893 / 2 ^ 53`. -/
def float09Num : Nat := 8106479329266893

/-- `time.Duration(int64(float64(t) * 0.9))` in exact integer arithmetic,
for timeouts `t` (in ns, exactly representable) whose product with 0.9
lies in `[2^35, 2^36)`: there consecutive doubles are `2⁻¹⁷` apart, so the
binary64 product is the nearest multiple of `2⁻¹⁷` to
`t * float09Num / 2 ^ 53` (ties, which binary64 would break to even, are
unreachable at the default timeout), and the `int64` conversion truncates
the nonnegative result toward zero.  The exact product times `2 ^ 17` is
`t * float09Num / 2 ^ 36`; adding half the denominator before dividing
rounds to nearest. -/
def goTimes09 (t : Nat) : Nat :=
  ((2 * (t * float09Num) + 2 ^ 36) / 2 ^ 37) / 2 ^ 17

/-- The sleep duration computed by `httpPushResetTimer` at the default
timeout. -/
def httpPushResetTimerDur : Nat := goTimes09 httpPushTimeoutNs

/-- Events observed by the liveness-kicker goroutine of `HandlePush`: a
`httpPushResetTimer` expiry (carrying the current time) or the
`requestEnded` signal. -/
inductive KickEvent
  | tick (now : Nat)
  | ended
  deriving DecidableEq, Repr

/-- The liveness-kicker loop of `HandlePush`: on each timer expiry look
the connection up in `rtmpConnections` by manifest identity and, when
present, set its `lastUsed` to the current time (a pointer write under the
connection lock in the source); exit at the request-completion signal,
ignoring any later events. -/
def kickerRun (mid : String) : ServerState → List KickEvent → ServerState
  | st, [] => st
  | st, KickEvent.ended :: _ => st
  | st, KickEvent.tick now :: rest =>
    match mfind st.rtmpConnections mid with
    | some c =>
      kickerRun mid
        { st with rtmpConnections :=
            mapInsert st.rtmpConnections mid { c with lastUsed := now } } rest
    | none => kickerRun mid st rest

/-- The fields of `net/url.URL` relevant to `HandlePush`. -/
structure GoURL where
  scheme : String
  host : String
  path : String
  rawQuery : String
  fragment : String
  deriving DecidableEq, Repr

/-- Line 705 of `HandlePush`:
`r.URL = &url.URL{Scheme: "http", Host: r.Host, Path: r.URL.Path}`. -/
def rewritePushURL (r : GoURL) (host : String) : GoURL :=
  { scheme := "http", host := host, path := r.path, rawQuery := "", fragment := "" }

/-- `url.URL.String()` for the URL shapes reachable here (no user info, no
opaque part, no forced query, and a path that needs no escaping): the
scheme followed by `:`, then `//` and the host whenever a scheme or host
is present and the host or path is non-empty, then the path, `?query`,
and `#fragment`. -/
def urlString (u : GoURL) : String :=
  (if u.scheme = "" then "" else u.scheme ++ ":") ++
    (if (u.scheme ≠ "" ∨ u.host ≠ "") ∧ (u.host ≠ "" ∨ u.path ≠ "") then "//" ++ u.host
     else "") ++
    u.path ++
    (if u.rawQuery = "" then "" else "?" ++ u.rawQuery) ++
    (if u.fragment = "" then "" else "#" ++ u.fragment)

/-- The `{"url": ...}` value POSTed to the auth webhook for a push
request: `r.URL.String()` after the line-705 rewrite. -/
def authWebhookPayloadURL (r : GoURL) (host : String) : String :=
  urlString (rewritePushURL r host)

/-- No duplicate keys in an association list. -/
def keysNodup {α : Type} (m : List (String × α)) : Prop :=
  (m.map Prod.fst).Nodup

/-- The registry invariant: external keys are unique and non-empty, every
external identity maps to a registered internal identity, no two external
identities share an internal identity, and every registered connection
carries its own key as `mid` and a non-nil playlist. -/
structure RegistryInv (st : ServerState) : Prop where
  extKeysNodup : keysNodup st.internalManifests
  noEmptyExtKey : mfind st.internalManifests "" = none
  contained : ∀ e i, mfind st.internalManifests e = some i →
    (mfind st.rtmpConnections i).isSome
  extInj : ∀ e e' i, mfind st.internalManifests e = some i →
    mfind st.internalManifests e' = some i → e = e'
  connMid : ∀ k c, mfind st.rtmpConnections k = some c → c.mid = k
  connPl : ∀ k c, mfind st.rtmpConnections k = some c → c.hasPl = true

/-- The `!ok || cxn.pl == nil` test at the head of `removeRTMPStream`:
no live connection is registered under the resolved identity. -/
def noLiveConnection (st : ServerState) (m : String) : Bool :=
  match mfind st.rtmpConnections (resolveMid st m) with
  | none => true
  | some c => !c.hasPl

/-- Default profile list with `FormatNone` entries, as in
`BroadcastJobVideoProfiles` before any push. -/
def defaultsW : List VideoProfile :=
  [{ name := "P240p30fps4x3" }, { name := "P360p30fps16x9" }]

/-- An initially empty registry with the default profile list. -/
def stEmpty : ServerState :=
  { rtmpConnections := [], internalManifests := [],
    broadcastJobVideoProfiles := defaultsW }

/-- A registry holding one push-registered connection `mani2`. -/
def stC6 : ServerState :=
  (handlePushBind stEmpty "mani2" none "" Format.FormatMPEGTS 7 100).1

/-- A live connection under internal identity `intmid`, registered while
external `extmid1` was pushed (nonce 7). -/
def cxnOld : RtmpConnection :=
  { mid := "intmid", nonce := 7,
    profile := { name := "source", bitrate := "4000k",
                 format := Format.FormatMPEGTS },
    profiles := defaultsW, hasPl := true, lastUsed := 100 }

/-- Registry with `intmid` live and bound under external `extmid1`, as
after `/live/extmid1/0.ts` was pushed with a webhook assigning `intmid`. -/
def stRebind : ServerState :=
  { rtmpConnections := [("intmid", cxnOld)],
    internalManifests := [("extmid1", "intmid")],
    broadcastJobVideoProfiles := defaultsW }

/-- The state after `/live/extmid2/0.ts` arrives and the webhook again
assigns internal identity `intmid`. -/
def stRebind' : ServerState :=
  (handlePushBind stRebind "extmid2" (some "intmid") "" Format.FormatMPEGTS 8 200).1

/-- The state after pushing `/live/extmid1/...` (webhook `intmid`) into an
empty registry and then removing the stream keyed by the internal
identity `intmid`, as `endRTMPStreamHandler` does with
`params.ManifestID`. -/
def stDangling : ServerState :=
  run stEmpty
    [Op.push "extmid1" (some "intmid") "" Format.FormatMPEGTS 7 100,
     Op.remove "intmid"]

/-- Single-profile list for the multipart scenarios (the Go test
`TestPush_MultipartReturn` configures exactly one profile). -/
def profsW : List VideoProfile :=
  [{ name := "P144p25fps16x9", format := Format.FormatMPEGTS }]

/-- Storage session with no rendition payloads (`GetData` returns nil). -/
def storeEmptyW : String → Option (List Nat) := fun _ => none

/-- Storage session holding a payload under one rendition URI. -/
def storeBinW : String → Option (List Nat) := fun u =>
  if u = "mani/P144p25fps16x9/12.ts" then some [116, 114, 97, 110, 115] else none

/-- A kicker-scenario connection. -/
def cxnC7 : RtmpConnection :=
  { mid := "mani", nonce := 7,
    profile := { name := "source", bitrate := "4000k",
                 format := Format.FormatMPEGTS },
    profiles := profsW, hasPl := true, lastUsed := 100 }

/-- A kicker-scenario registry holding `mani`. -/
def stC7 : ServerState :=
  { rtmpConnections := [("mani", cxnC7)], internalManifests := [],
    broadcastJobVideoProfiles := defaultsW }

theorem mfind_mapErase {α : Type} (m : List (String × α)) (k k' : String) :
    mfind (mapErase m k) k' = if k = k' then none else mfind m k' := by
  induction m with
  | nil => simp [mapErase, mfind]
  | cons hd tl ih =>
    obtain ⟨a, b⟩ := hd
    by_cases hak : a = k
    · subst hak
      by_cases hkk : a = k'
      · subst hkk; simpa [mapErase, mfind] using ih
      · simpa [mapErase, mfind, hkk] using ih
    · by_cases hak' : a = k'
      · subst hak'
        have hk : ¬ k = a := fun h => hak h.symm
        simp [mapErase, mfind, hak, hk]
      · simp [mapErase, mfind, hak, hak', ih]

theorem mfind_mapInsert {α : Type} (m : List (String × α)) (k k' : String) (v : α) :
    mfind (mapInsert m k v) k' = if k = k' then some v else mfind m k' := by
  by_cases hkk : k = k' <;> simp [mapInsert, mfind, hkk, mfind_mapErase]

theorem keys_mapErase_subset {α : Type} (m : List (String × α)) (k a : String) :
    a ∈ (mapErase m k).map Prod.fst → a ∈ m.map Prod.fst := by
  induction m with
  | nil => simp [mapErase]
  | cons hd tl ih =>
    obtain ⟨x, y⟩ := hd
    by_cases hxk : x = k
    · intro ha
      simp only [mapErase, if_pos hxk] at ha
      exact List.mem_cons_of_mem _ (ih ha)
    · intro ha
      simp only [mapErase, if_neg hxk, List.map_cons, List.mem_cons] at ha
      rcases ha with h | h
      · simp [h]
      · exact List.mem_cons_of_mem _ (ih h)

theorem not_mem_keys_mapErase {α : Type} (m : List (String × α)) (k : String) :
    k ∉ (mapErase m k).map Prod.fst := by
  induction m with
  | nil => simp [mapErase]
  | cons hd tl ih =>
    obtain ⟨x, y⟩ := hd
    by_cases hxk : x = k
    · simpa [mapErase, hxk] using ih
    · simp [mapErase, hxk, ih, Ne.symm hxk]

theorem keysNodup_mapErase {α : Type} (m : List (String × α)) (k : String)
    (h : keysNodup m) : keysNodup (mapErase m k) := by
  induction m with
  | nil => simpa [mapErase] using h
  | cons hd tl ih =>
    obtain ⟨x, y⟩ := hd
    simp only [keysNodup, List.map_cons, List.nodup_cons] at h
    by_cases hxk : x = k
    · simpa [keysNodup, mapErase, hxk] using ih h.2
    · have hx : x ∉ (mapErase tl k).map Prod.fst := fun hmem =>
        h.1 (keys_mapErase_subset tl k x hmem)
      have : keysNodup (mapErase tl k) := ih h.2
      simpa [keysNodup, mapErase, hxk] using List.Nodup.cons hx this

theorem keysNodup_mapInsert {α : Type} (m : List (String × α)) (k : String) (v : α)
    (h : keysNodup m) : keysNodup (mapInsert m k v) := by
  have hk : k ∉ (mapErase m k).map Prod.fst := not_mem_keys_mapErase m k
  simpa [keysNodup, mapInsert] using List.Nodup.cons hk (keysNodup_mapErase m k h)

theorem mfind_mem_keys {α : Type} (m : List (String × α)) (k : String) (v : α)
    (h : mfind m k = some v) : k ∈ m.map Prod.fst := by
  induction m with
  | nil => simp [mfind] at h
  | cons hd tl ih =>
    obtain ⟨a, b⟩ := hd
    by_cases hak : a = k
    · simp [hak]
    · simp only [mfind, if_neg hak] at h
      exact List.mem_cons_of_mem _ (ih h)

theorem findOldExternal_none (m : List (String × String)) (t : String)
    (h : findOldExternal m t = none) : ∀ k, mfind m k ≠ some t := by
  induction m with
  | nil => intro k; simp [mfind]
  | cons hd tl ih =>
    obtain ⟨a, b⟩ := hd
    intro k
    by_cases hbt : b = t
    · simp [findOldExternal, hbt] at h
    · simp only [findOldExternal, if_neg hbt] at h
      by_cases hak : a = k
      · subst hak
        simp only [mfind, if_pos rfl]
        intro hc; exact hbt (Option.some.injEq _ _ ▸ hc)
      · simpa [mfind, hak] using ih h k

theorem findOldExternal_key_mem (m : List (String × String)) (t k : String)
    (h : findOldExternal m t = some k) : k ∈ m.map Prod.fst := by
  induction m with
  | nil => simp [findOldExternal] at h
  | cons hd tl ih =>
    obtain ⟨a, b⟩ := hd
    by_cases hbt : b = t
    · simp only [findOldExternal, if_pos hbt] at h
      simp [← Option.some.injEq _ _ |>.mp h]
    · simp only [findOldExternal, if_neg hbt] at h
      exact List.mem_cons_of_mem _ (ih h)

theorem findOldExternal_some_mfind (m : List (String × String)) (t k : String)
    (hnd : keysNodup m) (h : findOldExternal m t = some k) : mfind m k = some t := by
  induction m with
  | nil => simp [findOldExternal] at h
  | cons hd tl ih =>
    obtain ⟨a, b⟩ := hd
    simp only [keysNodup, List.map_cons, List.nodup_cons] at hnd
    by_cases hbt : b = t
    · simp only [findOldExternal, if_pos hbt] at h
      have hak : a = k := Option.some.injEq _ _ |>.mp h
      simp [mfind, hak, hbt]
    · simp only [findOldExternal, if_neg hbt] at h
      have hk : k ∈ tl.map Prod.fst := findOldExternal_key_mem tl t k h
      have hak : ¬ a = k := fun hak => hnd.1 (hak ▸ hk)
      simpa [mfind, hak] using ih hnd.2 h

theorem removeRTMPStream_inv (st : ServerState) (m : String)
    (hInv : RegistryInv st) (hok : removeKeyOk st m) :
    RegistryInv (removeRTMPStream st m).1 := by
  have key : ∀ e j, e ≠ m → mfind st.internalManifests e = some j →
      j ≠ resolveMid st m := by
    intro e j hem hej hji
    rcases hmm : mfind st.internalManifests m with _ | i0
    · simp only [resolveMid, hmm] at hji
      rcases hok with hok | hok
      · simp [removeKeyOk, hmm] at hok
      · exact hok e (hji ▸ hej)
    · simp only [resolveMid, hmm] at hji
      exact hem (hInv.extInj e m j hej (hji ▸ hmm))
  simp only [removeRTMPStream]
  rcases hc : mfind st.rtmpConnections (resolveMid st m) with _ | c
  · exact hInv
  · have hpl : c.hasPl = true := hInv.connPl _ _ hc
    simp only [hpl, if_true]
    refine ⟨?_, ?_, ?_, ?_, ?_, ?_⟩
    · exact keysNodup_mapErase _ _ hInv.extKeysNodup
    · show mfind (mapErase st.internalManifests m) "" = none
      rw [mfind_mapErase]; split
      · rfl
      · exact hInv.noEmptyExtKey
    · intro e i hei
      rw [mfind_mapErase] at hei
      split at hei
      · exact absurd hei (by simp)
      · rename_i hme
        show (mfind (mapErase st.rtmpConnections (resolveMid st m)) i).isSome
        rw [mfind_mapErase]
        have hne : i ≠ resolveMid st m := key e i (fun h => hme h.symm) hei
        rw [if_neg (fun h => hne h.symm)]
        exact hInv.contained e i hei
    · intro e e' i he he'
      rw [mfind_mapErase] at he he'
      split at he
      · exact absurd he (by simp)
      · split at he'
        · exact absurd he' (by simp)
        · exact hInv.extInj e e' i he he'
    · intro k c' hc'
      rw [mfind_mapErase] at hc'
      split at hc'
      · exact absurd hc' (by simp)
      · exact hInv.connMid k c' hc'
    · intro k c' hc'
      rw [mfind_mapErase] at hc'
      split at hc'
      · exact absurd hc' (by simp)
      · exact hInv.connPl k c' hc'

theorem cleanupOldExternal_not_cond (st : ServerState) (mid pm : String)
    (h : ¬(mid ≠ pm ∧ (mfind st.rtmpConnections pm).isSome ∧
        (mfind st.internalManifests mid).getD "" = "")) :
    cleanupOldExternal st mid pm = st := by
  simp only [cleanupOldExternal, if_neg h]

theorem cleanupOldExternal_none (st : ServerState) (mid pm : String)
    (hfo : findOldExternal st.internalManifests pm = none) :
    cleanupOldExternal st mid pm = st := by
  simp only [cleanupOldExternal, hfo]
  split <;> rfl

theorem cleanupOldExternal_some (st : ServerState) (mid pm old : String)
    (hfo : findOldExternal st.internalManifests pm = some old)
    (hcond : mid ≠ pm ∧ (mfind st.rtmpConnections pm).isSome ∧
        (mfind st.internalManifests mid).getD "" = "")
    (hne : old ≠ "" ∧ mid ≠ old) :
    cleanupOldExternal st mid pm = (removeRTMPStream st old).1 := by
  unfold cleanupOldExternal
  rw [if_pos hcond, hfo]
  exact if_pos hne

theorem registerAndMap_inv (t : ServerState) (params : StreamParameters)
    (n now : Nat) (e : String) (hInv : RegistryInv t) (he : e ≠ "")
    (hee : mfind t.internalManifests e = none)
    (h2 : params.manifestID ≠ e → ∀ e',
      mfind t.internalManifests e' ≠ some params.manifestID) :
    RegistryInv (registerAndMap t params n now e).1 := by
  rcases hc : mfind t.rtmpConnections params.manifestID with _ | c1
  · -- fresh insert
    simp only [registerAndMap, registerConnection, hc]
    split
    · rename_i hpe
      have h2' := h2 hpe
      refine ⟨?_, ?_, ?_, ?_, ?_, ?_⟩
      · exact keysNodup_mapInsert _ _ _ hInv.extKeysNodup
      · show mfind (mapInsert t.internalManifests e params.manifestID) "" = none
        rw [mfind_mapInsert, if_neg he]
        exact hInv.noEmptyExtKey
      · intro e' i h
        rw [mfind_mapInsert] at h
        show (mfind (mapInsert t.rtmpConnections params.manifestID _) i).isSome
        rw [mfind_mapInsert]
        split
        · simp
        · rename_i hpi
          split at h
          · cases h; exact absurd rfl hpi
          · exact hInv.contained e' i h
      · intro e1 e2 i h1 hx2
        rw [mfind_mapInsert] at h1 hx2
        split at h1 <;> split at hx2
        · rename_i hle1 hle2; rw [← hle1, ← hle2]
        · cases h1; exact absurd hx2 (h2' e2)
        · cases hx2; exact absurd h1 (h2' e1)
        · exact hInv.extInj e1 e2 i h1 hx2
      · intro k c hkc
        rw [mfind_mapInsert] at hkc
        split at hkc
        · cases hkc; rename_i hek; exact hek
        · exact hInv.connMid k c hkc
      · intro k c hkc
        rw [mfind_mapInsert] at hkc
        split at hkc
        · cases hkc; rfl
        · exact hInv.connPl k c hkc
    · rename_i hpe
      refine ⟨hInv.extKeysNodup, hInv.noEmptyExtKey, ?_, hInv.extInj, ?_, ?_⟩
      · intro e' i h
        show (mfind (mapInsert t.rtmpConnections params.manifestID _) i).isSome
        rw [mfind_mapInsert]
        split
        · simp
        · exact hInv.contained e' i h
      · intro k c hkc
        rw [mfind_mapInsert] at hkc
        split at hkc
        · cases hkc; rename_i hek; exact hek
        · exact hInv.connMid k c hkc
      · intro k c hkc
        rw [mfind_mapInsert] at hkc
        split at hkc
        · cases hkc; rfl
        · exact hInv.connPl k c hkc
  · -- errAlreadyExists: registry unchanged, reuse old cxn
    have hmidc : c1.mid = params.manifestID := hInv.connMid _ _ hc
    simp only [registerAndMap, registerConnection, hc, hmidc]
    split
    · rename_i hpe
      have h2' := h2 hpe
      refine ⟨?_, ?_, ?_, ?_, hInv.connMid, hInv.connPl⟩
      · exact keysNodup_mapInsert _ _ _ hInv.extKeysNodup
      · show mfind (mapInsert t.internalManifests e params.manifestID) "" = none
        rw [mfind_mapInsert, if_neg he]
        exact hInv.noEmptyExtKey
      · intro e' i h
        rw [mfind_mapInsert] at h
        split at h
        · cases h; simp [hc]
        · exact hInv.contained e' i h
      · intro e1 e2 i h1 hx2
        rw [mfind_mapInsert] at h1 hx2
        split at h1 <;> split at hx2
        · rename_i hle1 hle2; rw [← hle1, ← hle2]
        · cases h1; exact absurd hx2 (h2' e2)
        · cases hx2; exact absurd h1 (h2' e1)
        · exact hInv.extInj e1 e2 i h1 hx2
    · exact hInv

theorem handlePushBind_inv (st : ServerState) (e : String) (wm : Option String)
    (res : String) (fmt : Format) (n now : Nat) (hInv : RegistryInv st) :
    RegistryInv (handlePushBind st e wm res fmt n now).1 := by
  by_cases he : e = ""
  · simpa [handlePushBind, he] using hInv
  · simp only [handlePushBind, if_neg he, createStreamParams]
    rcases hlk : mfind st.rtmpConnections (resolveMid st e) with _ | c
    · -- register path
      have hext : mfind st.internalManifests e = none := by
        rcases hx : mfind st.internalManifests e with _ | x
        · rfl
        · exfalso
          have hcont := hInv.contained e x hx
          have hrx : resolveMid st e = x := by simp [resolveMid, hx]
          rw [hrx] at hlk
          rw [hlk] at hcont
          simp at hcont
      have hmid : resolveMid st e = e := by simp [resolveMid, hext]
      rw [hmid]
      rcases hfo : findOldExternal st.internalManifests (paramManifestID wm e) with _ | old
      · rw [cleanupOldExternal_none st e _ hfo]
        exact registerAndMap_inv st _ n now e hInv he hext
          (fun _ e' => findOldExternal_none _ _ hfo e')
      · have hold : mfind st.internalManifests old = some (paramManifestID wm e) :=
          findOldExternal_some_mfind _ _ _ hInv.extKeysNodup hfo
        have holdne : old ≠ "" := by
          intro h; rw [h, hInv.noEmptyExtKey] at hold; cases hold
        have heold : e ≠ old := by
          intro h; rw [← h, hext] at hold; cases hold
        by_cases hcond : e ≠ paramManifestID wm e ∧
            (mfind st.rtmpConnections (paramManifestID wm e)).isSome ∧
            (mfind st.internalManifests e).getD "" = ""
        · rw [cleanupOldExternal_some st e _ old hfo hcond ⟨holdne, heold⟩]
          obtain ⟨c0, hc0⟩ := Option.isSome_iff_exists.mp hcond.2.1
          have hpl0 : c0.hasPl = true := hInv.connPl _ _ hc0
          have hres : resolveMid st old = paramManifestID wm e := by
            simp [resolveMid, hold]
          have hrm : (removeRTMPStream st old).1 =
              { st with
                rtmpConnections := mapErase st.rtmpConnections (paramManifestID wm e),
                internalManifests := mapErase st.internalManifests old } := by
            simp only [removeRTMPStream, hres, hc0, hpl0, if_true]
          have hInvT : RegistryInv (removeRTMPStream st old).1 :=
            removeRTMPStream_inv st old hInv (Or.inl (by simp [hold]))
          rw [hrm] at hInvT ⊢
          refine registerAndMap_inv _ _ n now e hInvT he ?_ ?_
          · show mfind (mapErase st.internalManifests old) e = none
            rw [mfind_mapErase]
            split
            · rfl
            · exact hext
          · intro _ e' hcontra
            rw [mfind_mapErase] at hcontra
            split at hcontra
            · cases hcontra
            · rename_i hoe
              exact hoe (hInv.extInj old e' _ hold hcontra)
        · rw [cleanupOldExternal_not_cond st e _ hcond]
          refine registerAndMap_inv st _ n now e hInv he hext ?_
          intro hpe e' hcontra
          exact hcond ⟨fun h => hpe h.symm, hInv.contained e' _ hcontra, by simp [hext]⟩
    · -- refresh path
      have hcm : c.mid = resolveMid st e := hInv.connMid _ _ hlk
      have hplc : c.hasPl = true := hInv.connPl _ _ hlk
      refine ⟨hInv.extKeysNodup, hInv.noEmptyExtKey, ?_, hInv.extInj, ?_, ?_⟩
      · intro e' i h
        show (mfind (mapInsert st.rtmpConnections (resolveMid st e) _) i).isSome
        rw [mfind_mapInsert]
        split
        · simp
        · exact hInv.contained e' i h
      · intro k c' hkc
        rw [mfind_mapInsert] at hkc
        split at hkc
        · cases hkc; rename_i hek; rw [← hek]; exact hcm
        · exact hInv.connMid k c' hkc
      · intro k c' hkc
        rw [mfind_mapInsert] at hkc
        split at hkc
        · cases hkc; exact hplc
        · exact hInv.connPl k c' hkc

theorem step_inv (st : ServerState) (op : Op) (hInv : RegistryInv st)
    (hok : okOp st op) : RegistryInv (step st op) := by
  cases op with
  | push e wm res fmt n now => exact handlePushBind_inv st e wm res fmt n now hInv
  | remove m => exact removeRTMPStream_inv st m hInv hok

theorem run_inv (ops : List Op) : ∀ st : ServerState, RegistryInv st →
    okRun st ops → RegistryInv (run st ops) := by
  induction ops with
  | nil => intro st h _; exact h
  | cons op rest ih =>
    intro st h hok
    exact ih (step st op) (step_inv st op h hok.1) hok.2

theorem removeRTMPStream_defaults (st : ServerState) (m : String) :
    (removeRTMPStream st m).1.broadcastJobVideoProfiles =
      st.broadcastJobVideoProfiles := by
  simp only [removeRTMPStream]
  split
  · rfl
  · split <;> rfl

theorem cleanupOldExternal_defaults (st : ServerState) (mid pm : String) :
    (cleanupOldExternal st mid pm).broadcastJobVideoProfiles =
      st.broadcastJobVideoProfiles := by
  simp only [cleanupOldExternal]
  split
  · split
    · split
      · apply removeRTMPStream_defaults
      · rfl
    · rfl
  · rfl

theorem registerAndMap_defaults (t : ServerState) (params : StreamParameters)
    (n now : Nat) (mid : String) :
    (registerAndMap t params n now mid).1.broadcastJobVideoProfiles =
      t.broadcastJobVideoProfiles := by
  simp only [registerAndMap, registerConnection]
  rcases mfind t.rtmpConnections params.manifestID with _ | c <;> split <;> rfl

theorem handlePushBind_defaults (st : ServerState) (e : String)
    (wm : Option String) (res : String) (fmt : Format) (n now : Nat) :
    (handlePushBind st e wm res fmt n now).1.broadcastJobVideoProfiles =
      st.broadcastJobVideoProfiles := by
  simp only [handlePushBind]
  split
  · rfl
  · rcases mfind st.rtmpConnections (resolveMid st e) with _ | c
    · rw [registerAndMap_defaults, cleanupOldExternal_defaults]
    · rfl

theorem step_defaults (st : ServerState) (op : Op) :
    (step st op).broadcastJobVideoProfiles = st.broadcastJobVideoProfiles := by
  cases op with
  | push e wm res fmt n now => exact handlePushBind_defaults st e wm res fmt n now
  | remove m => exact removeRTMPStream_defaults st m

theorem run_defaults (ops : List Op) : ∀ st : ServerState,
    (run st ops).broadcastJobVideoProfiles = st.broadcastJobVideoProfiles := by
  induction ops with
  | nil => intro st; rfl
  | cons op rest ih =>
    intro st
    calc (run st (op :: rest)).broadcastJobVideoProfiles
        = (run (step st op) rest).broadcastJobVideoProfiles := rfl
      _ = (step st op).broadcastJobVideoProfiles := ih (step st op)
      _ = st.broadcastJobVideoProfiles := step_defaults st op

/-- C3: after any sequence of registry operations (in particular any
sequence of HTTP pushes) the process-wide default profile list
`BroadcastJobVideoProfiles` is unchanged, so every entry whose format was
`FormatNone` still carries `FormatNone`: each new connection's profile
list is a fresh copy of the defaults, and format propagation only touches
the copy. -/
theorem C3_defaults_unchanged (st : ServerState) (ops : List Op)
    (h : ∀ p ∈ st.broadcastJobVideoProfiles, p.format = Format.FormatNone) :
    (run st ops).broadcastJobVideoProfiles = st.broadcastJobVideoProfiles ∧
    ∀ p ∈ (run st ops).broadcastJobVideoProfiles, p.format = Format.FormatNone := by
  refine ⟨run_defaults ops st, ?_⟩
  intro p hp
  rw [run_defaults ops st] at hp
  exact h p hp

theorem C3_defaults_unchanged_witness :
    (run stEmpty
        [Op.push "mani1" none "" Format.FormatMPEGTS 7 100,
         Op.push "new" none "" Format.FormatMP4 8 200]).broadcastJobVideoProfiles =
      stEmpty.broadcastJobVideoProfiles ∧
    ∀ p ∈ (run stEmpty
        [Op.push "mani1" none "" Format.FormatMPEGTS 7 100,
         Op.push "new" none "" Format.FormatMP4 8 200]).broadcastJobVideoProfiles,
      p.format = Format.FormatNone :=
  C3_defaults_unchanged stEmpty _ (by decide)

/-- C5: `authenticateStream` errors exactly on a webhook transport error,
a non-200 status, an undecodable body, or a decoded body with an empty
`manifestID`; a 200 with an empty body yields the same "no opinion"
result (`ok none`) as an unconfigured webhook URL.  The six cases are
exhaustive over all inputs. -/
theorem C5_authenticateStream_cases :
    (∀ out, authenticateStream false out = AuthResult.ok none) ∧
    authenticateStream true WebhookOutcome.netError = AuthResult.err ∧
    (∀ s b, s ≠ 200 →
      authenticateStream true (WebhookOutcome.response s b) = AuthResult.err) ∧
    authenticateStream true (WebhookOutcome.response 200 WebhookBody.empty) =
      AuthResult.ok none ∧
    authenticateStream true (WebhookOutcome.response 200 WebhookBody.malformed) =
      AuthResult.err ∧
    (∀ r, authenticateStream true (WebhookOutcome.response 200 (WebhookBody.parsed r)) =
      if r.manifestID = "" then AuthResult.err else AuthResult.ok (some r)) := by
  refine ⟨fun out => rfl, rfl, ?_, rfl, rfl, fun r => ?_⟩
  · intro s b hs
    simp [authenticateStream, hs]
  · simp [authenticateStream]

theorem C5_authenticateStream_cases_witness :
    authenticateStream true (WebhookOutcome.response 403 WebhookBody.empty) =
      AuthResult.err :=
  C5_authenticateStream_cases.2.2.1 403 WebhookBody.empty (by decide)

/-- C6: `removeRTMPStream` for an identity with no live connection —
including a second call for an identity already removed — reports
`errUnknownStream` (`false`) and leaves the registry state unchanged. -/
theorem C6_remove_unknown (st : ServerState) (m : String)
    (h : noLiveConnection st m = true) :
    removeRTMPStream st m = (st, false) := by
  unfold noLiveConnection at h
  simp only [removeRTMPStream]
  rcases hc : mfind st.rtmpConnections (resolveMid st m) with _ | c
  · rfl
  · rw [hc] at h
    have hpl : c.hasPl = false := by simpa using h
    simp [hpl]

theorem C6_remove_unknown_witness :
    removeRTMPStream (removeRTMPStream stC6 "mani2").1 "mani2" =
      ((removeRTMPStream stC6 "mani2").1, false) :=
  C6_remove_unknown _ "mani2" (by decide)

/-- C7: the liveness kicker's sub-interval for the default `PushTimeout`
is exactly 90% of it (54 s of 60 s, the binary64 product being exact);
each timer expiry looks the connection up by identity and refreshes its
`lastUsed` to the current time when it is registered, changing nothing
otherwise; and the loop exits at the request-completion signal, ignoring
later events. -/
theorem C7_kicker :
    httpPushResetTimerDur * 10 = 9 * httpPushTimeoutNs ∧
    (∀ mid st rest, kickerRun mid st (KickEvent.ended :: rest) = st) ∧
    (∀ mid st now rest c, mfind st.rtmpConnections mid = some c →
      kickerRun mid st (KickEvent.tick now :: rest) =
        kickerRun mid
          { st with rtmpConnections :=
              mapInsert st.rtmpConnections mid { c with lastUsed := now } } rest) ∧
    (∀ mid st now rest, mfind st.rtmpConnections mid = none →
      kickerRun mid st (KickEvent.tick now :: rest) = kickerRun mid st rest) := by
  refine ⟨by decide, fun mid st rest => rfl, ?_, ?_⟩
  · intro mid st now rest c hc
    simp only [kickerRun, hc]
  · intro mid st now rest hc
    simp only [kickerRun, hc]

theorem C7_kicker_witness :
    kickerRun "mani" stC7 [KickEvent.tick 4242] =
      kickerRun "mani"
        { stC7 with rtmpConnections :=
            mapInsert stC7.rtmpConnections "mani" { cxnC7 with lastUsed := 4242 } } [] :=
  C7_kicker.2.2.1 "mani" stC7 4242 [] cxnC7 (by decide)

/-- C10: before identity resolution `HandlePush` replaces the request URL
by one built only from scheme `http`, the request `Host`, and the path, so
the `{"url": ...}` payload sent to the auth webhook is always
`http://<host><path>`, with the original scheme, query string and fragment
discarded. -/
theorem C10_webhook_url (r : GoURL) (host : String) (hpath : r.path ≠ "") :
    authWebhookPayloadURL r host = "http://" ++ host ++ r.path := by
  simp only [authWebhookPayloadURL, rewritePushURL, urlString]
  rw [if_neg (by decide : ¬("http" : String) = ""),
    if_pos (⟨Or.inl (by decide), Or.inr hpath⟩ :
      (("http" : String) ≠ "" ∨ host ≠ "") ∧ (host ≠ "" ∨ r.path ≠ ""))]
  simp only [if_true]
  rw [String.append_empty, String.append_empty, ← String.append_assoc]
  rfl

theorem C10_webhook_url_witness :
    authWebhookPayloadURL
      { scheme := "https", host := "ignored.example", path := "/live/mani/1.ts",
        rawQuery := "key=value", fragment := "frag" } "example.com" =
      "http://" ++ "example.com" ++ "/live/mani/1.ts" :=
  C10_webhook_url _ "example.com" (by decide)


theorem mkParts_spec (profiles : List VideoProfile) (seq : Nat)
    (store : String → Option (List Nat)) :
    ∀ (urls : List String) (i : Nat),
      i + urls.length ≤ profiles.length →
      (∀ j url prof, urls.get? j = some url → profiles.get? (i + j) = some prof →
        ((store url).getD []).length ≠ 0 → (profileFormatExt prof.format).isSome) →
      ∃ parts, mkParts profiles seq store i urls = some (parts, false) ∧
        parts.length = urls.length ∧
        ∀ j url, urls.get? j = some url → ∃ part, parts.get? j = some part ∧
          part.body = (if ((store url).getD []).length = 0 then PartBody.uri url
                       else PartBody.data ((store url).getD [])) := by
  intro urls
  induction urls with
  | nil =>
    intro i _ _
    refine ⟨[], rfl, rfl, ?_⟩
    intro j url hj
    simp at hj
  | cons url rest ih =>
    intro i hlen hfmt
    have hi : i < profiles.length := by
      simp only [List.length_cons] at hlen
      omega
    have hprof : profiles.get? i = some (profiles.get ⟨i, hi⟩) := List.get?_eq_get hi
    have hlen' : (i + 1) + rest.length ≤ profiles.length := by
      simp only [List.length_cons] at hlen
      omega
    have hfmt' : ∀ j u p, rest.get? j = some u → profiles.get? (i + 1 + j) = some p →
        ((store u).getD []).length ≠ 0 → (profileFormatExt p.format).isSome := by
      intro j u p hj hp hd
      refine hfmt (j + 1) u p (by simpa using hj) ?_ hd
      rw [← hp]
      congr 1
      omega
    obtain ⟨ps, hps, hlenps, hbody⟩ := ih (i + 1) hlen' hfmt'
    by_cases hd : ((store url).getD []).length = 0
    · refine ⟨mkUriPart (profiles.get ⟨i, hi⟩) seq url :: ps, ?_, by simp [hlenps], ?_⟩
      · simp only [mkParts, hprof]
        rw [if_pos hd, hps]
      · intro j u hj
        cases j with
        | zero =>
          simp only [List.get?_cons_zero] at hj
          cases hj
          exact ⟨_, rfl, by simp [mkUriPart, hd]⟩
        | succ j' =>
          simp only [List.get?_cons_succ] at hj
          obtain ⟨part, hpart, hbody'⟩ := hbody j' u hj
          exact ⟨part, by simpa using hpart, hbody'⟩
    · have hvalid : (profileFormatExt (profiles.get ⟨i, hi⟩).format).isSome :=
        hfmt 0 url (profiles.get ⟨i, hi⟩) (by simp) (by simp [hprof]) hd
      obtain ⟨ext, hext⟩ := Option.isSome_iff_exists.mp hvalid
      refine ⟨mkBinPart (profiles.get ⟨i, hi⟩) seq ext ((store url).getD []) :: ps,
        ?_, by simp [hlenps], ?_⟩
      · simp only [mkParts, hprof]
        rw [if_neg hd, hext, hps]
      · intro j u hj
        cases j with
        | zero =>
          simp only [List.get?_cons_zero] at hj
          cases hj
          exact ⟨_, rfl, by simp [mkBinPart, hd]⟩
        | succ j' =>
          simp only [List.get?_cons_succ] at hj
          obtain ⟨part, hpart, hbody'⟩ := hbody j' u hj
          exact ⟨part, by simpa using hpart, hbody'⟩

theorem mkParts_isSome (profiles : List VideoProfile) (seq : Nat)
    (store : String → Option (List Nat)) :
    ∀ (urls : List String) (i : Nat), i + urls.length ≤ profiles.length →
      (mkParts profiles seq store i urls).isSome := by
  intro urls
  induction urls with
  | nil => intro i _; rfl
  | cons url rest ih =>
    intro i hlen
    have hi : i < profiles.length := by
      simp only [List.length_cons] at hlen
      omega
    have hprof : profiles.get? i = some (profiles.get ⟨i, hi⟩) := List.get?_eq_get hi
    have hrec := ih (i + 1) (by simp only [List.length_cons] at hlen; omega)
    obtain ⟨pr, hpr⟩ := Option.isSome_iff_exists.mp hrec
    obtain ⟨ps, brk⟩ := pr
    simp only [mkParts, hprof]
    by_cases hd : ((store url).getD []).length = 0
    · rw [if_pos hd, hpr]
      rfl
    · rcases hext : profileFormatExt (profiles.get ⟨i, hi⟩).format with _ | ext
      · rw [if_neg hd]
        rfl
      · rw [if_neg hd, hpr]
        rfl

theorem mkParts_oob (profiles : List VideoProfile) (seq : Nat)
    (store : String → Option (List Nat))
    (hfmt : ∀ p ∈ profiles, (profileFormatExt p.format).isSome) :
    ∀ (urls : List String) (i : Nat), urls ≠ [] →
      profiles.length < i + urls.length →
      mkParts profiles seq store i urls = none := by
  intro urls
  induction urls with
  | nil => intro i h _; exact absurd rfl h
  | cons url rest ih =>
    intro i _ hlen
    by_cases hi : i < profiles.length
    · have hprof : profiles.get? i = some (profiles.get ⟨i, hi⟩) := List.get?_eq_get hi
      have hrest : rest ≠ [] := by
        intro h
        subst h
        simp only [List.length_cons, List.length_nil] at hlen
        omega
      have hrec := ih (i + 1) hrest (by simp only [List.length_cons] at hlen; omega)
      simp only [mkParts, hprof]
      by_cases hd : ((store url).getD []).length = 0
      · rw [if_pos hd, hrec]
      · have hvalid := hfmt _ (List.get_mem profiles i hi)
        obtain ⟨ext, hext⟩ := Option.isSome_iff_exists.mp hvalid
        rw [if_neg hd, hext, hrec]
    · have hprof : profiles.get? i = none := List.get?_eq_none.mpr (by omega)
      simp only [mkParts, hprof]

/-- C4: with `Accept: multipart/mixed` and a non-empty rendition URI list,
the multipart body contains exactly one part per rendition URI, in the
order returned by `processSegment`; a part's body is the stored payload
when the in-memory storage session holds a non-empty payload under the
URI key, and the UTF-8 URI string otherwise.  (Hypotheses: the URI list
does not exceed the profile list — the indexing constraint of C9 — and
each profile used by a binary part has a known container format, which
push registration guarantees.) -/
theorem C4_multipart (profiles : List VideoProfile) (seq : Nat)
    (store : String → Option (List Nat)) (urls : List String)
    (hne : urls ≠ []) (hlen : urls.length ≤ profiles.length)
    (hfmt : ∀ j url prof, urls.get? j = some url → profiles.get? j = some prof →
      ((store url).getD []).length ≠ 0 → (profileFormatExt prof.format).isSome) :
    ∃ parts, mkParts profiles seq store 0 urls = some (parts, false) ∧
      parts.length = urls.length ∧
      ∀ j url, urls.get? j = some url → ∃ part, parts.get? j = some part ∧
        part.body = (if ((store url).getD []).length = 0 then PartBody.uri url
                     else PartBody.data ((store url).getD [])) := by
  refine mkParts_spec profiles seq store urls 0 (by simpa using hlen) ?_
  intro j url prof hj hp hd
  exact hfmt j url prof hj (by simpa using hp) hd

theorem C4_multipart_witness :
    ∃ parts, mkParts profsW 17 storeEmptyW 0 ["https://stub/transcoded/segment.ts"] =
        some (parts, false) ∧
      parts.length = ["https://stub/transcoded/segment.ts"].length ∧
      ∀ j url, ["https://stub/transcoded/segment.ts"].get? j = some url →
        ∃ part, parts.get? j = some part ∧
          part.body = (if ((storeEmptyW url).getD []).length = 0 then PartBody.uri url
                       else PartBody.data ((storeEmptyW url).getD [])) :=
  C4_multipart profsW 17 storeEmptyW _ (by decide) (by decide)
    (fun j url prof _ _ hd => absurd rfl hd)

/-- C9: the multipart loop reads `Profiles[i]` for every part (the name
for URI parts, also the format for binary parts), so a URI list no longer
than the connection's profile list never trips the bounds check, while —
for a connection whose profile formats all have known extensions, as push
registration guarantees, so that the format-error break cannot end the
loop early — a longer URI list reaches an out-of-bounds index: a panic,
modelled by `none`. -/
theorem C9_index_safety (profiles : List VideoProfile) (seq : Nat)
    (store : String → Option (List Nat)) (urls : List String) :
    (urls.length ≤ profiles.length → (mkParts profiles seq store 0 urls).isSome) ∧
    ((∀ p ∈ profiles, (profileFormatExt p.format).isSome) →
      profiles.length < urls.length → mkParts profiles seq store 0 urls = none) := by
  constructor
  · intro h
    exact mkParts_isSome profiles seq store urls 0 (by simpa using h)
  · intro hfmt h
    have hne : urls ≠ [] := by
      intro hurls
      subst hurls
      simp at h
    exact mkParts_oob profiles seq store hfmt urls 0 hne (by simpa using h)

theorem C9_index_safety_witness :
    (mkParts profsW 12 storeBinW 0 ["mani/P144p25fps16x9/12.ts"]).isSome ∧
    mkParts profsW 12 storeBinW 0 ["u1", "u2"] = none :=
  ⟨(C9_index_safety profsW 12 storeBinW ["mani/P144p25fps16x9/12.ts"]).1 (by decide),
   (C9_index_safety profsW 12 storeBinW ["u1", "u2"]).2 (by decide) (by decide)⟩

/-- C1 amended: when a push with a new external identity resolves (via the
webhook) to the internal identity of a live connection bound under a
different external identity, the older external mapping is removed from
`internalManifests` and the new external identity is bound — but the
`Connection` under the internal identity is not preserved: the old record
is closed by `removeRTMPStream` and a freshly created record (new nonce,
new source profile, new profile list, new `lastUsed`) is registered in its
place. -/
theorem C1_rebind (st : ServerState) (e1 e2 i : String) (c0 : RtmpConnection)
    (res : String) (fmt : Format) (n now : Nat)
    (hInv : RegistryInv st)
    (he2 : e2 ≠ "") (hi : i ≠ "") (hie2 : i ≠ e2)
    (hold : mfind st.internalManifests e1 = some i)
    (hnew : mfind st.internalManifests e2 = none)
    (hconn : mfind st.rtmpConnections i = some c0)
    (hfresh : mfind st.rtmpConnections e2 = none) :
    mfind (handlePushBind st e2 (some i) res fmt n now).1.internalManifests e1 = none ∧
    mfind (handlePushBind st e2 (some i) res fmt n now).1.internalManifests e2 = some i ∧
    mfind (handlePushBind st e2 (some i) res fmt n now).1.rtmpConnections i =
      some { mid := i, nonce := n,
             profile := { name := "source", resolution := res, bitrate := "4000k",
                          format := fmt },
             profiles := setProfileFormats st.broadcastJobVideoProfiles fmt,
             hasPl := true, lastUsed := now } := by
  have hrm2 : resolveMid st e2 = e2 := by simp [resolveMid, hnew]
  have hpm : paramManifestID (some i) e2 = i := by simp [paramManifestID, hi]
  have he1e2 : e1 ≠ e2 := by
    intro h
    rw [h, hnew] at hold
    cases hold
  have he1ne : e1 ≠ "" := by
    intro h
    rw [h, hInv.noEmptyExtKey] at hold
    cases hold
  have hfo : findOldExternal st.internalManifests i = some e1 := by
    rcases h : findOldExternal st.internalManifests i with _ | old
    · exact absurd hold (findOldExternal_none _ _ h e1)
    · have hmo : mfind st.internalManifests old = some i :=
        findOldExternal_some_mfind _ _ _ hInv.extKeysNodup h
      rw [hInv.extInj old e1 i hmo hold]
  have hpl0 : c0.hasPl = true := hInv.connPl _ _ hconn
  have hres1 : resolveMid st e1 = i := by simp [resolveMid, hold]
  have hrm : (removeRTMPStream st e1).1 =
      { st with rtmpConnections := mapErase st.rtmpConnections i,
                internalManifests := mapErase st.internalManifests e1 } := by
    simp only [removeRTMPStream, hres1, hconn, hpl0, if_true]
  have hclean : cleanupOldExternal st e2 i = (removeRTMPStream st e1).1 :=
    cleanupOldExternal_some st e2 i e1 hfo
      ⟨fun h => hie2 h.symm, by simp [hconn], by simp [hnew]⟩
      ⟨he1ne, fun h => he1e2 h.symm⟩
  have hfreshT : mfind (mapErase st.rtmpConnections i) i = none := by
    rw [mfind_mapErase, if_pos rfl]
  simp only [handlePushBind, if_neg he2, createStreamParams, hrm2, hfresh, hpm, hclean,
    hrm, registerAndMap, registerConnection, hfreshT]
  rw [if_pos hie2]
  refine ⟨?_, ?_, ?_⟩
  · show mfind (mapInsert (mapErase st.internalManifests e1) e2 i) e1 = none
    rw [mfind_mapInsert, if_neg (fun h => he1e2 h.symm), mfind_mapErase, if_pos rfl]
  · show mfind (mapInsert (mapErase st.internalManifests e1) e2 i) e2 = some i
    rw [mfind_mapInsert, if_pos rfl]
  · show mfind (mapInsert (mapErase st.rtmpConnections i) i
        { mid := i, nonce := n,
          profile := { name := "source", resolution := res, bitrate := "4000k",
                       format := fmt },
          profiles := setProfileFormats st.broadcastJobVideoProfiles fmt,
          hasPl := true, lastUsed := now }) i = some _
    rw [mfind_mapInsert, if_pos rfl]

theorem mfind_singleton_cases {α : Type} (k : String) (v : α) (e : String) (i : α)
    (h : mfind [(k, v)] e = some i) : k = e ∧ v = i := by
  simp only [mfind] at h
  split at h
  · rename_i hk
    cases h
    exact ⟨hk, rfl⟩
  · cases h

theorem stRebind_inv : RegistryInv stRebind := by
  refine ⟨?_, rfl, ?_, ?_, ?_, ?_⟩
  · show (stRebind.internalManifests.map Prod.fst).Nodup
    decide
  · intro e i h
    obtain ⟨hk, hv⟩ := mfind_singleton_cases _ _ _ _ h
    rw [← hv]
    decide
  · intro e e' i h h'
    obtain ⟨hk, _⟩ := mfind_singleton_cases _ _ _ _ h
    obtain ⟨hk', _⟩ := mfind_singleton_cases _ _ _ _ h'
    rw [← hk, ← hk']
  · intro k c h
    obtain ⟨hk, hv⟩ := mfind_singleton_cases _ _ _ _ h
    rw [← hk, ← hv]
    decide
  · intro k c h
    obtain ⟨hk, hv⟩ := mfind_singleton_cases _ _ _ _ h
    rw [← hv]
    decide

theorem stEmpty_inv : RegistryInv stEmpty :=
  ⟨List.nodup_nil, rfl, fun _ _ h => Option.noConfusion h,
   fun _ _ _ h _ => Option.noConfusion h,
   fun _ _ h => Option.noConfusion h, fun _ _ h => Option.noConfusion h⟩

/-- C1 counterexample: in the rebind scenario the older external mapping
is indeed removed, but the connection registered under the internal
identity is not the preserved record — `mfind` returns a different
`Connection` (the old one was closed and recreated). -/
theorem C1_cex :
    mfind stRebind'.internalManifests "extmid1" = none ∧
    mfind stRebind'.internalManifests "extmid2" = some "intmid" ∧
    mfind stRebind'.rtmpConnections "intmid" ≠ some cxnOld := by
  decide

theorem C1_rebind_witness :
    mfind (handlePushBind stRebind "extmid2" (some "intmid") ""
        Format.FormatMPEGTS 8 200).1.internalManifests "extmid1" = none ∧
    mfind (handlePushBind stRebind "extmid2" (some "intmid") ""
        Format.FormatMPEGTS 8 200).1.internalManifests "extmid2" = some "intmid" ∧
    mfind (handlePushBind stRebind "extmid2" (some "intmid") ""
        Format.FormatMPEGTS 8 200).1.rtmpConnections "intmid" =
      some { mid := "intmid", nonce := 8,
             profile := { name := "source", resolution := "", bitrate := "4000k",
                          format := Format.FormatMPEGTS },
             profiles := setProfileFormats stRebind.broadcastJobVideoProfiles
               Format.FormatMPEGTS,
             hasPl := true, lastUsed := 200 } :=
  C1_rebind stRebind "extmid1" "extmid2" "intmid" cxnOld "" Format.FormatMPEGTS 8 200
    stRebind_inv (by decide) (by decide) (by decide) (by decide) (by decide)
    (by decide) (by decide)

/-- C2 counterexample: push `/live/extmid1/…` with webhook identity
`intmid` into an empty registry, then remove the stream keyed by the
internal identity `intmid` (as an explicit stream end does).  The external
entry `extmid1 → intmid` survives while the connection entry for `intmid`
is gone: removal was not atomic across both maps and the containment
invariant is broken. -/
theorem C2_cex :
    mfind stDangling.internalManifests "extmid1" = some "intmid" ∧
    mfind stDangling.rtmpConnections "intmid" = none := by
  decide

/-- C2 amended: after any sequence of registry operations in which every
removal is keyed by an identity that either resolves through the external
map or has no external alias, every external identity in
`internalManifests` maps to an internal identity whose connection is in
`rtmpConnections` (each such removal deletes both entries together).  A
removal keyed directly by an aliased internal identity violates this —
see the counterexample. -/
theorem C2_registry_invariant (st : ServerState) (ops : List Op)
    (hInv : RegistryInv st) (hok : okRun st ops) :
    ∀ e i, mfind (run st ops).internalManifests e = some i →
      (mfind (run st ops).rtmpConnections i).isSome :=
  (run_inv ops st hInv hok).contained

theorem C2_registry_invariant_witness :
    (mfind (run stEmpty
        [Op.push "extmid1" (some "intmid") "" Format.FormatMPEGTS 7 100,
         Op.remove "extmid1",
         Op.push "extmid2" (some "intmid2") "" Format.FormatMPEGTS 8 200]).rtmpConnections
      "intmid2").isSome :=
  C2_registry_invariant stEmpty
    [Op.push "extmid1" (some "intmid") "" Format.FormatMPEGTS 7 100,
     Op.remove "extmid1",
     Op.push "extmid2" (some "intmid2") "" Format.FormatMPEGTS 8 200]
    stEmpty_inv ⟨trivial, Or.inl (by decide), trivial, trivial⟩ "extmid2" "intmid2"
    (by decide)

theorem removeRTMPStream_conns_mono (st : ServerState) (m k : String)
    (hk : mfind st.rtmpConnections k = none) :
    mfind (removeRTMPStream st m).1.rtmpConnections k = none := by
  simp only [removeRTMPStream]
  split
  · exact hk
  · split
    · show mfind (mapErase st.rtmpConnections (resolveMid st m)) k = none
      rw [mfind_mapErase]
      split
      · rfl
      · exact hk
    · exact hk

theorem cleanupOldExternal_conns_none (st : ServerState) (mid pm k : String)
    (hk : mfind st.rtmpConnections k = none) :
    mfind (cleanupOldExternal st mid pm).rtmpConnections k = none := by
  simp only [cleanupOldExternal]
  split
  · split
    · split
      · exact removeRTMPStream_conns_mono st _ k hk
      · exact hk
    · exact hk
  · exact hk

theorem registerAndMap_snd (t : ServerState) (params : StreamParameters)
    (n now : Nat) (mid : String) :
    (registerAndMap t params n now mid).2 =
      some (registerConnection t params n now).2.1 := by
  simp only [registerAndMap]
  split <;> rfl

theorem registerConnection_fresh (t : ServerState) (params : StreamParameters)
    (n now : Nat) (h : mfind t.rtmpConnections params.manifestID = none) :
    (registerConnection t params n now).2.1 =
      { mid := params.manifestID, nonce := n,
        profile := { name := "source", resolution := params.resolution,
                     bitrate := "4000k", format := params.format },
        profiles := params.profiles, hasPl := true, lastUsed := now } := by
  simp only [registerConnection, h]

/-- C8: on the first push for a new identity, the registered connection's
profile list is the default list with the URL-derived container format
written into every entry whose format was `FormatNone`, and the
connection's source profile carries the URL-derived format as well
(e.g. a `.mp4` push yields `FormatMP4` on the source profile and on every
output profile whose format was unset). -/
theorem C8_format_propagation (st : ServerState) (e : String) (wm : Option String)
    (res ext : String) (n now : Nat) (he : e ≠ "")
    (hfresh : mfind st.rtmpConnections (resolveMid st e) = none)
    (hfresh2 : mfind st.rtmpConnections (paramManifestID wm e) = none) :
    ∃ c, (handlePushBind st e wm res (profileExtFormat ext) n now).2 = some c ∧
      c.profile.format = profileExtFormat ext ∧
      c.profiles = setProfileFormats st.broadcastJobVideoProfiles (profileExtFormat ext) ∧
      ∀ j p, st.broadcastJobVideoProfiles.get? j = some p →
        c.profiles.get? j = some
          (if p.format = Format.FormatNone
           then { p with format := profileExtFormat ext } else p) := by
  have hmid1 : mfind (cleanupOldExternal st (resolveMid st e)
      (paramManifestID wm e)).rtmpConnections (paramManifestID wm e) = none :=
    cleanupOldExternal_conns_none st _ _ _ hfresh2
  simp only [handlePushBind, if_neg he, hfresh, createStreamParams]
  rw [registerAndMap_snd, registerConnection_fresh _ _ n now hmid1]
  refine ⟨_, rfl, rfl, rfl, ?_⟩
  intro j p hp
  simp only [setProfileFormats, List.get?_map, hp]
  rfl

theorem C8_format_propagation_witness :
    ∃ c, (handlePushBind stEmpty "new" none "" (profileExtFormat ".mp4") 9 300).2 =
        some c ∧
      c.profile.format = profileExtFormat ".mp4" ∧
      c.profiles = setProfileFormats stEmpty.broadcastJobVideoProfiles
        (profileExtFormat ".mp4") ∧
      ∀ j p, stEmpty.broadcastJobVideoProfiles.get? j = some p →
        c.profiles.get? j = some
          (if p.format = Format.FormatNone
           then { p with format := profileExtFormat ".mp4" } else p) :=
  C8_format_propagation stEmpty "new" none "" ".mp4" 9 300 (by decide) (by decide)
    (by decide)
